import Mathlib

/-!
Shallow embedding of the core of `src/pdf_editor.py` (PDFEditorApp and
TTSWorker).  Page-coordinate values, which the Python code keeps as floats,
are modelled with exact rationals: every claim below is about order,
containment and bookkeeping logic, never about rounding.  Fallible external
calls (file dialogs, `fitz.open`, `new_doc.save`, `pyttsx3.init`) are passed
in as explicit parameters describing their outcome.
-/

namespace PdfEditor

/-- Value view of a `fitz.Rect`: four page-space bounds.  `fitz.Rect`
equality compares coordinates, which `DecidableEq` mirrors. -/
structure Rect where
  x0 : ℚ
  y0 : ℚ
  x1 : ℚ
  y1 : ℚ
deriving DecidableEq, Repr

/-- The dataclass `ImageModification(page_num, old_rect, new_image_path)`
(source lines 125-129). -/
structure ImageModification where
  page_num : Nat
  old_rect : Rect
  new_image_path : String
deriving DecidableEq, Repr

/-- The ledger key a replacement record is matched on: `(page_num, old_rect)`
as compared in `replace_image` (source line 421). -/
def modKey (m : ImageModification) : Nat × Rect :=
  (m.page_num, m.old_rect)

/-- The ledger update loop of `PDFEditorApp.replace_image`
(source lines 419-426): scan `self.modifications` for the first record with
the same `(page_num, old_rect)`; overwrite it in place and stop; if no record
matches, append the new record at the end. -/
def addOrReplace : List ImageModification → ImageModification → List ImageModification
  | [], m => [m]
  | existing :: rest, m =>
    if existing.page_num = m.page_num ∧ existing.old_rect = m.old_rect then
      m :: rest
    else
      existing :: addOrReplace rest m

/-- `PDFEditorApp.clear_page_edits` (source lines 431-436) restricted to its
ledger effect: keep the records whose page differs from the current page and
report `before - after` as the number of cleared edits. -/
def clear_page_edits (mods : List ImageModification) (p : Nat) :
    List ImageModification × Nat :=
  let remaining := mods.filter (fun m => !(m.page_num == p))
  (remaining, mods.length - remaining.length)

/-- A `fitz.Document` handle as the app observes it: the path it was opened
from, its page count, and whether `close()` has been called on it.  In the
Python source `doc.close()` mutates the handle that `self.doc` still points
to, which the `closed` flag records. -/
structure DocHandle where
  path : String
  pageCount : Nat
  closed : Bool
deriving DecidableEq, Repr

/-- The mutable fields of `PDFEditorApp` that the claims are about
(source lines 140-164): document handle, its path, current page index, zoom,
the modification ledger, the interaction mode (`mode_var`), the selected
source rectangle and the status line.  Canvas-only mirrors of the selection
(`selected_rect_canvas`, `selected_highlight_id`) are drawing artifacts of
`selected_rect_pdf` and are not modelled separately. -/
structure AppState where
  doc : Option DocHandle
  doc_path : Option String
  current_page_idx : Nat
  zoom : ℚ
  modifications : List ImageModification
  mode : String
  selected_rect_pdf : Option Rect
  status : String
deriving DecidableEq, Repr

/-- `PDFEditorApp._clear_selection` (source lines 557-562): drop the selected
rectangle (the canvas highlight it also deletes is derived state). -/
def clearSelection (s : AppState) : AppState :=
  { s with selected_rect_pdf := none }

/-- `PDFEditorApp.prev_page` (source lines 341-347): with a document open and
a positive page index, step back one page and clear the selection; otherwise
do nothing. -/
def prev_page (s : AppState) : AppState :=
  match s.doc with
  | none => s
  | some _ =>
    if 0 < s.current_page_idx then
      clearSelection { s with current_page_idx := s.current_page_idx - 1 }
    else s

/-- `PDFEditorApp.next_page` (source lines 349-355): with a document open and
the page index below `len(doc) - 1`, step forward one page and clear the
selection; otherwise do nothing. -/
def next_page (s : AppState) : AppState :=
  match s.doc with
  | none => s
  | some d =>
    if s.current_page_idx < d.pageCount - 1 then
      clearSelection { s with current_page_idx := s.current_page_idx + 1 }
    else s

/-- `PDFEditorApp.replace_image` (source lines 404-429).  The replacement
file dialog result is a parameter: `none` models a cancelled dialog (falsy
path).  Note that the source never clears `selected_rect_pdf` here. -/
def replace_image (s : AppState) (dialogPath : Option String) : AppState :=
  if s.mode ≠ "select" then s
  else
    match s.selected_rect_pdf with
    | none => s
    | some rect =>
      match dialogPath with
      | none => { s with status := "Image replacement cancelled" }
      | some path =>
        let m : ImageModification := ⟨s.current_page_idx, rect, path⟩
        { s with modifications := addOrReplace s.modifications m,
                 status := "Scheduled replacement: " ++ path }

/-- `PDFEditorApp.open_pdf` (source lines 280-295).  `dialogPath = none`
models a cancelled file dialog; `openResult` is the outcome of
`fitz.open(path)`, `some pageCount` on success and `none` when it raises.
The source closes the previously open document before attempting the open,
inside the same `try` block. -/
def open_pdf (s : AppState) (dialogPath : Option String)
    (openResult : Option Nat) : AppState :=
  match dialogPath with
  | none => s
  | some path =>
    let s1 := { s with doc := s.doc.map (fun (d : DocHandle) => { d with closed := true }) }
    match openResult with
    | some pageCount =>
      { s1 with doc := some ⟨path, pageCount, false⟩,
                doc_path := some path,
                current_page_idx := 0,
                modifications := [],
                status := "Opened " ++ path }
    | none => { s1 with status := "Failed to open PDF" }

/-- What a successful `new_doc.save(out_path)` persists to disk: the ledger
records that were actually composited onto the fresh copy. -/
structure SavedDoc where
  appliedMods : List ImageModification
deriving DecidableEq, Repr

/-- The record-application filter of the save loop (source lines 454-461):
a record is painted and inserted only when `0 <= mod.page_num < len(new_doc)`;
out-of-range records are skipped with `continue`. -/
def appliedOnCopy (mods : List ImageModification) (pageCount : Nat) :
    List ImageModification :=
  mods.filter (fun m => m.page_num < pageCount)

/-- `PDFEditorApp.save_pdf` (source lines 438-477).  The fallible external
steps are parameters, in source order: `outDialog` is the save dialog result,
`copyOpenOk` the outcome of `fitz.open(self.doc_path)` for the fresh copy,
`applyOk` the outcome of the paint-and-insert loop over the ledger,
`persistOk` the outcome of `new_doc.save(out_path)`, and `reopenOk` the
outcome of `fitz.open(out_path)` when the session re-adopts the saved file.
Any raise lands in the single `except` handler, which only reports the error.
Returns the new app state together with what was persisted to disk (if
anything). -/
def save_pdf (s : AppState) (outDialog : Option String)
    (copyOpenOk applyOk persistOk reopenOk : Bool) :
    AppState × Option SavedDoc :=
  match s.doc with
  | none => (s, none)
  | some d =>
    if s.modifications = [] then (s, none)
    else
      match outDialog with
      | none => (s, none)
      | some outPath =>
        let s0 := { s with status := "Saving PDF..." }
        if copyOpenOk then
          if applyOk then
            if persistOk then
              let saved := some (SavedDoc.mk (appliedOnCopy s.modifications d.pageCount))
              let s1 := { s0 with doc := some { d with closed := true } }
              if reopenOk then
                ({ s1 with doc := some ⟨outPath, d.pageCount, false⟩,
                           doc_path := some outPath,
                           current_page_idx := 0,
                           modifications := [],
                           status := "Saved to " ++ outPath }, saved)
              else
                ({ s1 with status := "Save failed" }, saved)
            else ({ s0 with status := "Save failed" }, none)
          else ({ s0 with status := "Save failed" }, none)
        else ({ s0 with status := "Save failed" }, none)

/-- Buffered candidate bounds of the hit test (source line 390): each side of
a reported region is pushed outward by `buffer_pdf = 8 / zoom`. -/
def bufferedRect (r : Rect) (b : ℚ) : Rect :=
  ⟨r.x0 - b, r.y0 - b, r.x1 + b, r.y1 + b⟩

/-- `fitz.Rect.contains` for a point: inclusive containment on all four
bounds (source line 391). -/
def rectContains (r : Rect) (x y : ℚ) : Bool :=
  decide (r.x0 ≤ x ∧ x ≤ r.x1 ∧ r.y0 ≤ y ∧ y ≤ r.y1)

/-- The region loop of `on_canvas_click_select` (source lines 385-400):
walk `page.get_image_info()` entries in reported order, skip entries without
a `bbox` (modelled as `none`), and return the first region whose buffered
bounds contain the click point. -/
def hitTestLoop (regions : List (Option Rect)) (x y b : ℚ) : Option Rect :=
  match regions with
  | [] => none
  | none :: rest => hitTestLoop rest x y b
  | some r :: rest =>
    if rectContains (bufferedRect r b) x y then some r
    else hitTestLoop rest x y b

/-- `PDFEditorApp.on_canvas_click_select` (source lines 362-402).  `regions`
is the `get_image_info()` result for the current page; `cx, cy` are the
canvas-space click coordinates.  With no document open the handler returns
before clearing the selection; otherwise it clears the previous selection
first, reports when no image regions exist, and selects the first buffered
region containing the click, leaving the selection empty when none does. -/
def on_canvas_click_select (s : AppState) (regions : List (Option Rect))
    (cx cy : ℚ) : AppState :=
  match s.doc with
  | none => { s with status := "Open a PDF first" }
  | some _ =>
    let s1 := clearSelection s
    let px := cx / s.zoom
    let py := cy / s.zoom
    if regions = [] then { s1 with status := "No images detected on this page" }
    else
      match hitTestLoop regions px py (8 / s.zoom) with
      | some r => { s1 with selected_rect_pdf := some r, status := "Selected image" }
      | none => { s1 with status := "No image at clicked location" }

/-- Observable outcome of one `TTSWorker.run` invocation (source lines
79-112): the utterances spoken, whether a `pyttsx3` engine was constructed,
and whether the consume loop was entered at all. -/
structure WorkerRunResult where
  spoken : List String
  engineCreated : Bool
  enteredLoop : Bool
deriving DecidableEq, Repr

/-- The consume loop of `TTSWorker.run` with the stop event never set
(source lines 88-104): tasks are spoken in queue order until the queue is
exhausted; the sentinel `None` breaks the loop immediately. -/
def speakLoop : List (Option String) → List String
  | [] => []
  | none :: _ => []
  | some t :: rest => t :: speakLoop rest

/-- `TTSWorker.run` (source lines 79-112) with the engine-initialization
outcome as a parameter.  When `pyttsx3.init()` raises, the method prints and
returns at once: no engine, no loop, nothing spoken. -/
def ttsWorkerRun (engineInitOk : Bool) (tasks : List (Option String)) :
    WorkerRunResult :=
  if engineInitOk then ⟨speakLoop tasks, true, true⟩
  else ⟨[], false, false⟩

/-- Outcome of the TTS startup block in `PDFEditorApp.__init__`
(source lines 176-182): the value of `self.tts_ready` and whether the host
constructor crashed. -/
structure TTSStartup where
  tts_ready : Bool
  crashed : Bool
deriving DecidableEq, Repr

/-- The TTS startup block of `PDFEditorApp.__init__` (source lines 176-182):
`tts_ready` is set from whether `TTSWorker(...).start()` raised, and the
surrounding `try` keeps the constructor from crashing either way.  Nothing
here observes whether `pyttsx3.init()` later succeeds inside the worker
thread. -/
def appStartTTS (threadStartOk : Bool) : TTSStartup :=
  if threadStartOk then ⟨true, false⟩ else ⟨false, false⟩

/-- Shared queue state between the worker thread and `stop_speaking`:
the pending FIFO contents, the task the worker has dequeued but not yet
finished speaking, and the utterances already spoken. -/
structure QState where
  queue : List String
  inFlight : Option String
  spoken : List String
deriving DecidableEq, Repr

/-- One atomic step of either thread against the shared queue:
`dequeue` is the worker taking `queue.get` (source line 90), `speak` is the
worker finishing `engine.say / runAndWait` on the dequeued task
(source lines 100-101), and `flushOne` is one `get_nowait()` iteration of the
drain loop in `stop_speaking` (source lines 536-540). -/
inductive TTSEvent where
  | dequeue
  | speak
  | flushOne
deriving DecidableEq, Repr

/-- Enabledness and effect of one interleaved step; `none` when the event is
not enabled in the given state. -/
def qstep (s : QState) (e : TTSEvent) : Option QState :=
  match e with
  | .dequeue =>
    match s.queue, s.inFlight with
    | t :: rest, none => some { s with queue := rest, inFlight := some t }
    | _, _ => none
  | .speak =>
    match s.inFlight with
    | some t => some { s with inFlight := none, spoken := s.spoken ++ [t] }
    | none => none
  | .flushOne =>
    match s.queue with
    | _ :: rest => some { s with queue := rest }
    | [] => none

/-- Run a sequence of interleaved steps; `none` when any step is disabled. -/
def qrunTrace (s : QState) : List TTSEvent → Option QState
  | [] => some s
  | e :: es => (qstep s e).bind (fun s1 => qrunTrace s1 es)

/-- The drain loop of `stop_speaking` run to completion without worker
interference (source lines 536-540): `while not empty: get_nowait()`. -/
def drainList : List String → List String
  | [] => []
  | _ :: rest => drainList rest

/-- Queue state after the `stop_speaking` drain completes with the worker
idle (nothing in flight is touched by the drain). -/
def drainAllQ (s : QState) : QState :=
  { s with queue := drainList s.queue }

/-- The worker loop consuming a whole queue without interference: each task
is dequeued and spoken in order, appending to the spoken log. -/
def speakQueue (spoken : List String) : List String → List String
  | [] => spoken
  | t :: rest => speakQueue (spoken ++ [t]) rest

/-- Lifecycle state of the worker thread as the spec names it. -/
inductive WorkerState where
  | notStarted
  | running
  | stopped
deriving DecidableEq, Repr

/-- Session view of the TTS subsystem for the restart contract: the shared
queue, the stop event, the current worker lifecycle state, the id of the
engine the current worker constructed in `run` (engines are identified by an
allocation counter, since `pyttsx3.init()` yields a fresh instance per call),
the ids of engines of previous workers, and `tts_ready`. -/
structure TTSSession where
  queue : List String
  stopEvent : Bool
  workerState : WorkerState
  workerEngine : Option Nat
  pastEngines : List Nat
  nextEngineId : Nat
  tts_ready : Bool
deriving DecidableEq, Repr

/-- `PDFEditorApp.stop_speaking` (source lines 532-553) as a sequential
restart: return at once when `tts_ready` is false; otherwise drain the queue,
set the stop event, let the old worker observe it and exit (its engine is
retired), clear the event, and start a fresh `TTSWorker` whose `run`
constructs a brand-new engine. -/
def stop_speaking (s : TTSSession) : TTSSession :=
  if s.tts_ready then
    { queue := drainList s.queue
      stopEvent := false
      workerState := .running
      workerEngine := some s.nextEngineId
      pastEngines := s.pastEngines ++ s.workerEngine.toList
      nextEngineId := s.nextEngineId + 1
      tts_ready := s.tts_ready }
  else s

/-! Helper lemmas about the ledger update. -/

theorem modKey_eq_iff {a b : ImageModification} :
    modKey a = modKey b ↔ a.page_num = b.page_num ∧ a.old_rect = b.old_rect := by
  simp [modKey, Prod.ext_iff]

theorem mem_map_modKey_addOrReplace (mods : List ImageModification)
    (m : ImageModification) (k : Nat × Rect)
    (hk : k ∈ (addOrReplace mods m).map modKey) :
    k ∈ mods.map modKey ∨ k = modKey m := by
  induction mods with
  | nil =>
    simp [addOrReplace] at hk
    exact Or.inr hk
  | cons e rest ih =>
    by_cases hc : e.page_num = m.page_num ∧ e.old_rect = m.old_rect
    · simp only [addOrReplace, if_pos hc, List.map_cons, List.mem_cons] at hk
      rcases hk with h | h
      · exact Or.inr h
      · exact Or.inl (by simp [h])
    · simp only [addOrReplace, if_neg hc, List.map_cons, List.mem_cons] at hk
      rcases hk with h | h
      · exact Or.inl (by simp [h])
      · rcases ih h with h1 | h1
        · exact Or.inl (by simp [h1])
        · exact Or.inr h1

theorem nodup_map_modKey_addOrReplace (mods : List ImageModification)
    (m : ImageModification) (h : (mods.map modKey).Nodup) :
    ((addOrReplace mods m).map modKey).Nodup := by
  induction mods with
  | nil => simp [addOrReplace, modKey]
  | cons e rest ih =>
    rw [List.map_cons, List.nodup_cons] at h
    by_cases hc : e.page_num = m.page_num ∧ e.old_rect = m.old_rect
    · have hkey : modKey m = modKey e := modKey_eq_iff.mpr ⟨hc.1.symm, hc.2.symm⟩
      simp only [addOrReplace, if_pos hc, List.map_cons, List.nodup_cons]
      exact ⟨by rw [hkey]; exact h.1, h.2⟩
    · simp only [addOrReplace, if_neg hc, List.map_cons, List.nodup_cons]
      refine ⟨?_, ih h.2⟩
      intro hmem
      rcases mem_map_modKey_addOrReplace rest m _ hmem with h1 | h1
      · exact h.1 h1
      · exact hc (modKey_eq_iff.mp h1)

theorem addOrReplace_of_not_mem (mods : List ImageModification)
    (m : ImageModification) (h : modKey m ∉ mods.map modKey) :
    addOrReplace mods m = mods ++ [m] := by
  induction mods with
  | nil => simp [addOrReplace]
  | cons e rest ih =>
    rw [List.map_cons] at h
    simp only [List.mem_cons, not_or] at h
    have hc : ¬(e.page_num = m.page_num ∧ e.old_rect = m.old_rect) := by
      intro hcc
      exact h.1 ((modKey_eq_iff.mpr hcc).symm)
    simp only [addOrReplace, if_neg hc, List.cons_append, ih h.2]

theorem map_subst_id (l : List ImageModification) (m : ImageModification)
    (h : modKey m ∉ l.map modKey) :
    l.map (fun x => if modKey x = modKey m then m else x) = l := by
  induction l with
  | nil => rfl
  | cons e rest ih =>
    rw [List.map_cons] at h
    simp only [List.mem_cons, not_or] at h
    have hne : modKey e ≠ modKey m := fun he => h.1 he.symm
    simp [List.map_cons, hne, ih h.2]

theorem addOrReplace_of_mem (mods : List ImageModification)
    (m : ImageModification) (hnd : (mods.map modKey).Nodup)
    (h : modKey m ∈ mods.map modKey) :
    addOrReplace mods m
      = mods.map (fun x => if modKey x = modKey m then m else x) := by
  induction mods with
  | nil => simp at h
  | cons e rest ih =>
    rw [List.map_cons, List.nodup_cons] at hnd
    rw [List.map_cons, List.mem_cons] at h
    by_cases hc : e.page_num = m.page_num ∧ e.old_rect = m.old_rect
    · have hkey : modKey e = modKey m := modKey_eq_iff.mpr hc
      have hnot : modKey m ∉ rest.map modKey := by rw [← hkey]; exact hnd.1
      simp only [addOrReplace, if_pos hc, List.map_cons, if_pos hkey,
        map_subst_id rest m hnot]
    · have hkey : modKey e ≠ modKey m := fun he => hc (modKey_eq_iff.mp he)
      have hmem : modKey m ∈ rest.map modKey := by
        rcases h with h1 | h1
        · exact absurd h1.symm hkey
        · exact h1
      simp only [addOrReplace, if_neg hc, List.map_cons, if_neg hkey,
        ih hnd.2 hmem]

theorem find?_addOrReplace (mods : List ImageModification)
    (m : ImageModification) :
    (addOrReplace mods m).find? (fun x => decide (modKey x = modKey m))
      = some m := by
  induction mods with
  | nil => simp [addOrReplace, List.find?]
  | cons e rest ih =>
    by_cases hc : e.page_num = m.page_num ∧ e.old_rect = m.old_rect
    · simp only [addOrReplace, if_pos hc]
      simp [List.find?]
    · have hkey : modKey e ≠ modKey m := fun he => hc (modKey_eq_iff.mp he)
      simp only [addOrReplace, if_neg hc]
      simp [List.find?, hkey, ih]

theorem foldl_addOrReplace_nodup (calls : List ImageModification) :
    ∀ init : List ImageModification, (init.map modKey).Nodup →
      ((calls.foldl addOrReplace init).map modKey).Nodup := by
  induction calls with
  | nil => intro init h; simpa using h
  | cons c rest ih =>
    intro init h
    exact ih _ (nodup_map_modKey_addOrReplace init c h)

/-- C1: for every sequence of `add_or_replace` calls (the ledger update of
`replace_image`), the ledger never contains two records with the same
`(page, rect)` key; a call whose key already occurs overwrites the matching
record in place (the list is the pointwise substitution at that key, so all
positions are preserved) and the stored image reference for that key is the
one from the last call; a call with a fresh key appends its record. -/
theorem c1_add_or_replace_ledger :
    (∀ (mods : List ImageModification) (m : ImageModification),
      (mods.map modKey).Nodup →
        ((addOrReplace mods m).map modKey).Nodup
        ∧ (modKey m ∉ mods.map modKey → addOrReplace mods m = mods ++ [m])
        ∧ (modKey m ∈ mods.map modKey →
            addOrReplace mods m
              = mods.map (fun x => if modKey x = modKey m then m else x))
        ∧ (addOrReplace mods m).find? (fun x => decide (modKey x = modKey m))
            = some m)
    ∧ (∀ calls : List ImageModification,
        ((calls.foldl addOrReplace []).map modKey).Nodup) := by
  constructor
  · intro mods m hnd
    exact ⟨nodup_map_modKey_addOrReplace mods m hnd,
      addOrReplace_of_not_mem mods m,
      addOrReplace_of_mem mods m hnd,
      find?_addOrReplace mods m⟩
  · intro calls
    exact foldl_addOrReplace_nodup calls [] (by simp)

/-- C1 witness, the scenario from the spec: a ledger holding
`(page 0, rect (10,10,50,50), "a.png")` updated with the same key and image
`"b.png"` becomes the single record with image `"b.png"`. -/
theorem c1_add_or_replace_ledger_witness :
    addOrReplace [⟨0, ⟨10, 10, 50, 50⟩, "a.png"⟩] ⟨0, ⟨10, 10, 50, 50⟩, "b.png"⟩
      = [⟨0, ⟨10, 10, 50, 50⟩, "b.png"⟩] := by
  have h := (c1_add_or_replace_ledger.1
      [⟨0, ⟨10, 10, 50, 50⟩, "a.png"⟩] ⟨0, ⟨10, 10, 50, 50⟩, "b.png"⟩
      (by simp)).2.2.1 (by simp [modKey])
  simpa [modKey] using h

/-- C7: `clear_page_edits` removes exactly the ledger records whose page
index equals the current page: the remaining records are a sublist of the
original ledger (original relative order), none of them is on the cleared
page, every record keeps its multiplicity unless it is on the cleared page,
and the reported count is the number of records that were on that page. -/
theorem c7_clear_page_edits :
    ∀ (mods : List ImageModification) (p : Nat),
      ((clear_page_edits mods p).1).Sublist mods
      ∧ (∀ m ∈ (clear_page_edits mods p).1, m.page_num ≠ p)
      ∧ (∀ m : ImageModification,
          ((clear_page_edits mods p).1).count m
            = if m.page_num = p then 0 else mods.count m)
      ∧ (clear_page_edits mods p).2
          = (mods.filter (fun m => m.page_num == p)).length := by
  intro mods p
  refine ⟨List.filter_sublist mods, ?_, ?_, ?_⟩
  · intro m hm
    have := (List.mem_filter.mp hm).2
    simpa using this
  · intro m
    by_cases h : m.page_num = p
    · rw [if_pos h]
      apply List.count_eq_zero.mpr
      intro hm
      have := (List.mem_filter.mp hm).2
      simp [h] at this
    · rw [if_neg h]
      exact List.count_filter (by simpa using h)
  · have hsplit := List.length_eq_length_filter_add
      (l := mods) (fun m => m.page_num == p)
    have hle : (mods.filter (fun m => !(m.page_num == p))).length ≤ mods.length :=
      (List.filter_sublist mods).length_le
    simp only [clear_page_edits]
    omega

/-- C7 witness: a two-record ledger on pages 0 and 1 cleared at page 0 keeps
the page-1 record and reports one removal. -/
theorem c7_clear_page_edits_witness :
    (1 : Nat) ≠ 0
    ∧ (clear_page_edits
        [⟨0, ⟨10, 10, 50, 50⟩, "a.png"⟩, ⟨1, ⟨20, 20, 60, 60⟩, "b.png"⟩] 0).2
        = 1 := by
  refine ⟨?_, ?_⟩
  · exact (c7_clear_page_edits
      [⟨0, ⟨10, 10, 50, 50⟩, "a.png"⟩, ⟨1, ⟨20, 20, 60, 60⟩, "b.png"⟩] 0).2.1
      ⟨1, ⟨20, 20, 60, 60⟩, "b.png"⟩ (by simp [clear_page_edits])
  · rw [(c7_clear_page_edits
      [⟨0, ⟨10, 10, 50, 50⟩, "a.png"⟩, ⟨1, ⟨20, 20, 60, 60⟩, "b.png"⟩] 0).2.2.2]
    simp

theorem hitTestLoop_eq_find? (regions : List (Option Rect)) (x y b : ℚ) :
    hitTestLoop regions x y b
      = (regions.filterMap id).find?
          (fun r => rectContains (bufferedRect r b) x y) := by
  induction regions with
  | nil => rfl
  | cons o rest ih =>
    cases o with
    | none => simpa [hitTestLoop, List.filterMap_cons] using ih
    | some r =>
      by_cases hc : rectContains (bufferedRect r b) x y
      · simp [hitTestLoop, hc, List.filterMap_cons, List.find?]
      · simp [hitTestLoop, hc, List.filterMap_cons, List.find?, ih]

/-- C8: with a document open, the click handler selects exactly the first
document-reported region (in reported order, entries without a bbox skipped)
whose bounds, buffered by the fixed 8-pixel canvas margin converted to page
space, contain the click point converted to page space; the result does not
depend on the previous selection, and when no buffered region contains the
point the selection is left cleared. -/
theorem c8_hit_test :
    ∀ (s : AppState) (regions : List (Option Rect)) (cx cy : ℚ),
      s.doc.isSome = true →
      (on_canvas_click_select s regions cx cy).selected_rect_pdf
        = (regions.filterMap id).find?
            (fun r => rectContains (bufferedRect r (8 / s.zoom))
              (cx / s.zoom) (cy / s.zoom)) := by
  intro s regions cx cy hdoc
  cases hd : s.doc with
  | none => rw [hd] at hdoc; cases hdoc
  | some d =>
    have hloop : (on_canvas_click_select s regions cx cy).selected_rect_pdf
        = hitTestLoop regions (cx / s.zoom) (cy / s.zoom) (8 / s.zoom) := by
      simp only [on_canvas_click_select, hd]
      by_cases hr : regions = []
      · subst hr; simp [clearSelection, hitTestLoop]
      · rw [if_neg hr]
        cases hht : hitTestLoop regions (cx / s.zoom) (cy / s.zoom) (8 / s.zoom) with
        | none => simp [clearSelection]
        | some r => simp
    rw [hloop, hitTestLoop_eq_find?]

/-- C8 witness: clicking at canvas point (225, 225) with zoom 3/2 lands at
page point (150, 150), inside the single reported region (100,100,200,200),
which becomes the selection. -/
theorem c8_hit_test_witness :
    (on_canvas_click_select
        ⟨some ⟨"d.pdf", 3, false⟩, some "d.pdf", 0, 3 / 2, [], "select",
          none, "Ready"⟩
        [some ⟨100, 100, 200, 200⟩] 225 225).selected_rect_pdf
      = some ⟨100, 100, 200, 200⟩ := by
  have h := c8_hit_test
    ⟨some ⟨"d.pdf", 3, false⟩, some "d.pdf", 0, 3 / 2, [], "select",
      none, "Ready"⟩
    [some ⟨100, 100, 200, 200⟩] 225 225 rfl
  rw [h]
  simp only [List.filterMap_cons, List.filterMap_nil, id, List.find?,
    rectContains, bufferedRect]
  norm_num

/-- C9 counterexample: consuming the selection in `replace_image` does not
clear it.  From a state in select mode with rectangle (10,10,50,50) selected,
a successful replacement leaves that same rectangle selected, contradicting
the claim that the selection is cleared after consumption. -/
theorem c9_selection_counterexample :
    (replace_image
        ⟨some ⟨"d.pdf", 3, false⟩, some "d.pdf", 0, 3 / 2, [], "select",
          some ⟨10, 10, 50, 50⟩, "Ready"⟩
        (some "b.png")).selected_rect_pdf
      = some ⟨10, 10, 50, 50⟩ := by
  rfl

/-- C9 amended: the selection is a single optional rectangle (so at most one
is active), it is cleared whenever `prev_page` or `next_page` actually
navigates, but it is not cleared after consumption: `replace_image` leaves
the selected rectangle exactly as it was in every branch. -/
theorem c9_selection_state :
    ∀ s : AppState,
      ((prev_page s).current_page_idx ≠ s.current_page_idx →
        (prev_page s).selected_rect_pdf = none)
      ∧ ((next_page s).current_page_idx ≠ s.current_page_idx →
        (next_page s).selected_rect_pdf = none)
      ∧ (∀ dialogPath : Option String,
          (replace_image s dialogPath).selected_rect_pdf
            = s.selected_rect_pdf) := by
  intro s
  refine ⟨?_, ?_, ?_⟩
  · intro h
    cases hd : s.doc with
    | none => rw [prev_page, hd] at h; exact absurd rfl h
    | some d =>
      simp only [prev_page, hd] at h ⊢
      by_cases hp : 0 < s.current_page_idx
      · simp [if_pos hp, clearSelection]
      · rw [if_neg hp] at h; exact absurd rfl h
  · intro h
    cases hd : s.doc with
    | none => rw [next_page, hd] at h; exact absurd rfl h
    | some d =>
      simp only [next_page, hd] at h ⊢
      by_cases hp : s.current_page_idx < d.pageCount - 1
      · simp [if_pos hp, clearSelection]
      · rw [if_neg hp] at h; exact absurd rfl h
  · intro dialogPath
    unfold replace_image
    split
    · rfl
    · split
      · rfl
      · split
        · rfl
        · rfl

/-- C9 amended witness: navigating back from page 1 clears the concrete
selection. -/
theorem c9_selection_state_witness :
    (prev_page
        ⟨some ⟨"d.pdf", 3, false⟩, some "d.pdf", 1, 3 / 2, [], "select",
          some ⟨10, 10, 50, 50⟩, "Ready"⟩).selected_rect_pdf = none := by
  exact (c9_selection_state _).1 (by decide)

/-- C10: `replace_image` leaves the ledger untouched on each of its early
exits: when the mode is not select, when no rectangle is selected, and when
the replacement-image dialog is cancelled. -/
theorem c10_replace_image_frame :
    ∀ (s : AppState) (dialogPath : Option String),
      (s.mode ≠ "select" ∨ s.selected_rect_pdf = none ∨ dialogPath = none) →
      (replace_image s dialogPath).modifications = s.modifications := by
  intro s d h
  unfold replace_image
  by_cases hm : s.mode = "select"
  · rw [if_neg (by simp [hm])]
    cases hsel : s.selected_rect_pdf with
    | none => rfl
    | some r =>
      cases d with
      | none => rfl
      | some path =>
        rcases h with h | h | h
        · exact absurd hm h
        · rw [hsel] at h; cases h
        · cases h
  · rw [if_pos hm]

/-- C10 witness: in draw mode, a replace request leaves the (empty) ledger
empty. -/
theorem c10_replace_image_frame_witness :
    (replace_image
        ⟨some ⟨"d.pdf", 3, false⟩, some "d.pdf", 0, 3 / 2, [], "draw",
          some ⟨10, 10, 50, 50⟩, "Ready"⟩
        (some "b.png")).modifications = [] := by
  have h := c10_replace_image_frame
    ⟨some ⟨"d.pdf", 3, false⟩, some "d.pdf", 0, 3 / 2, [], "draw",
      some ⟨10, 10, 50, 50⟩, "Ready"⟩
    (some "b.png") (Or.inl (by decide))
  simpa using h

/-- C6 counterexample: opening fails on a state that had "orig.pdf" open with
one pending modification.  The path, page index and ledger survive, but the
previously open document handle has already been closed by the time
`fitz.open` raises, so the prior document state is not left intact. -/
theorem c6_open_failure_counterexample :
    open_pdf
        ⟨some ⟨"orig.pdf", 3, false⟩, some "orig.pdf", 1, 3 / 2,
          [⟨0, ⟨10, 10, 50, 50⟩, "a.png"⟩], "select", none, "Ready"⟩
        (some "bad.pdf") none
      = ⟨some ⟨"orig.pdf", 3, true⟩, some "orig.pdf", 1, 3 / 2,
          [⟨0, ⟨10, 10, 50, 50⟩, "a.png"⟩], "select", none,
          "Failed to open PDF"⟩ := by
  rfl

/-- C6 amended: a failed open is non-fatal and user-visible (status/error
dialog), and leaves the document path, current page index, ledger and
selection unchanged; the previously open document reference is also
unchanged except that it has already been closed before the open attempt,
so the prior handle is closed rather than intact. -/
theorem c6_open_failure :
    ∀ (s : AppState) (d : DocHandle) (path : String),
      s.doc = some d →
      (open_pdf s (some path) none).doc = some { d with closed := true }
      ∧ (open_pdf s (some path) none).doc_path = s.doc_path
      ∧ (open_pdf s (some path) none).current_page_idx = s.current_page_idx
      ∧ (open_pdf s (some path) none).modifications = s.modifications
      ∧ (open_pdf s (some path) none).selected_rect_pdf = s.selected_rect_pdf
      ∧ (open_pdf s (some path) none).status = "Failed to open PDF" := by
  intro s d path hd
  refine ⟨?_, ?_, ?_, ?_, ?_, ?_⟩ <;> simp [open_pdf, hd]

/-- C6 amended witness: the concrete failed open keeps path "orig.pdf",
page 1 and the one-record ledger, with the prior handle closed. -/
theorem c6_open_failure_witness :
    (open_pdf
        ⟨some ⟨"orig.pdf", 3, false⟩, some "orig.pdf", 1, 3 / 2,
          [⟨0, ⟨10, 10, 50, 50⟩, "a.png"⟩], "select", none, "Ready"⟩
        (some "bad.pdf") none).modifications
      = [⟨0, ⟨10, 10, 50, 50⟩, "a.png"⟩] := by
  have h := (c6_open_failure
    ⟨some ⟨"orig.pdf", 3, false⟩, some "orig.pdf", 1, 3 / 2,
      [⟨0, ⟨10, 10, 50, 50⟩, "a.png"⟩], "select", none, "Ready"⟩
    ⟨"orig.pdf", 3, false⟩ "bad.pdf" rfl).2.2.2.1
  simpa using h

/-- C2 counterexample: with all steps up to and including `new_doc.save`
succeeding but the reopen `fitz.open(out_path)` failing, `save_pdf` reports
"Save failed" yet has already closed the live document and written the output
file, while the ledger still holds its record: an incomplete state transition
after a failed save, contradicting the claim. -/
theorem c2_save_failure_counterexample :
    save_pdf
        ⟨some ⟨"orig.pdf", 3, false⟩, some "orig.pdf", 0, 3 / 2,
          [⟨0, ⟨10, 10, 50, 50⟩, "a.png"⟩], "select", none, "Ready"⟩
        (some "out.pdf") true true true false
      = (⟨some ⟨"orig.pdf", 3, true⟩, some "orig.pdf", 0, 3 / 2,
          [⟨0, ⟨10, 10, 50, 50⟩, "a.png"⟩], "select", none, "Save failed"⟩,
         some ⟨[⟨0, ⟨10, 10, 50, 50⟩, "a.png"⟩]⟩) := by
  rfl

/-- C2 amended: save-commit works on a fresh copy, so a failure at opening
the copy, applying the records, or persisting leaves the ledger, live
document, path and page index unchanged and writes nothing; on full success
the output holds exactly the in-range records, the ledger is empty and the
session adopts the saved file; but when the persist succeeds and only the
reopen of the saved file fails, the ledger is unchanged while the live
document has already been closed — the transition is not atomic in that
case. -/
theorem c2_save_commit :
    ∀ (s : AppState) (d : DocHandle) (outPath : String)
      (copyOpenOk applyOk persistOk reopenOk : Bool),
      s.doc = some d → s.modifications ≠ [] →
      ((copyOpenOk = false ∨ applyOk = false ∨ persistOk = false) →
        (save_pdf s (some outPath) copyOpenOk applyOk persistOk reopenOk).2 = none
        ∧ (save_pdf s (some outPath) copyOpenOk applyOk persistOk reopenOk).1.doc = s.doc
        ∧ (save_pdf s (some outPath) copyOpenOk applyOk persistOk reopenOk).1.modifications
            = s.modifications
        ∧ (save_pdf s (some outPath) copyOpenOk applyOk persistOk reopenOk).1.doc_path
            = s.doc_path
        ∧ (save_pdf s (some outPath) copyOpenOk applyOk persistOk reopenOk).1.current_page_idx
            = s.current_page_idx)
      ∧ (copyOpenOk = true → applyOk = true → persistOk = true → reopenOk = true →
        (save_pdf s (some outPath) copyOpenOk applyOk persistOk reopenOk).2
            = some ⟨appliedOnCopy s.modifications d.pageCount⟩
        ∧ (save_pdf s (some outPath) copyOpenOk applyOk persistOk reopenOk).1.modifications = []
        ∧ (save_pdf s (some outPath) copyOpenOk applyOk persistOk reopenOk).1.doc
            = some ⟨outPath, d.pageCount, false⟩
        ∧ (save_pdf s (some outPath) copyOpenOk applyOk persistOk reopenOk).1.doc_path
            = some outPath
        ∧ (save_pdf s (some outPath) copyOpenOk applyOk persistOk reopenOk).1.current_page_idx
            = 0)
      ∧ (copyOpenOk = true → applyOk = true → persistOk = true → reopenOk = false →
        (save_pdf s (some outPath) copyOpenOk applyOk persistOk reopenOk).2
            = some ⟨appliedOnCopy s.modifications d.pageCount⟩
        ∧ (save_pdf s (some outPath) copyOpenOk applyOk persistOk reopenOk).1.modifications
            = s.modifications
        ∧ (save_pdf s (some outPath) copyOpenOk applyOk persistOk reopenOk).1.doc
            = some { d with closed := true }
        ∧ (save_pdf s (some outPath) copyOpenOk applyOk persistOk reopenOk).1.status
            = "Save failed") := by
  intro s d outPath copyOpenOk applyOk persistOk reopenOk hd hm
  cases copyOpenOk <;> cases applyOk <;> cases persistOk <;> cases reopenOk <;>
    simp_all [save_pdf]

/-- C2 amended witness: the fully successful concrete save empties the
ledger and persists exactly the in-range record. -/
theorem c2_save_commit_witness :
    (save_pdf
        ⟨some ⟨"orig.pdf", 3, false⟩, some "orig.pdf", 0, 3 / 2,
          [⟨0, ⟨10, 10, 50, 50⟩, "a.png"⟩], "select", none, "Ready"⟩
        (some "out.pdf") true true true true).1.modifications = []
    ∧ (save_pdf
        ⟨some ⟨"orig.pdf", 3, false⟩, some "orig.pdf", 0, 3 / 2,
          [⟨0, ⟨10, 10, 50, 50⟩, "a.png"⟩], "select", none, "Ready"⟩
        (some "out.pdf") true true true true).2
      = some ⟨appliedOnCopy [⟨0, ⟨10, 10, 50, 50⟩, "a.png"⟩] 3⟩ := by
  have h := (c2_save_commit
    ⟨some ⟨"orig.pdf", 3, false⟩, some "orig.pdf", 0, 3 / 2,
      [⟨0, ⟨10, 10, 50, 50⟩, "a.png"⟩], "select", none, "Ready"⟩
    ⟨"orig.pdf", 3, false⟩ "out.pdf" true true true true rfl
    (by simp)).2.1 rfl rfl rfl rfl
  exact ⟨h.2.1, h.1⟩

/-- C5 counterexample: with the worker thread started but `pyttsx3.init()`
failing inside `run`, the worker exits at once having spoken nothing, yet
`tts_ready` is still `true` and nothing records the failure — the readiness
flag does not observe engine-initialization failure, so speech features are
not disabled, contradicting the claim. -/
theorem c5_tts_init_counterexample :
    (ttsWorkerRun false [some "hello"]).spoken = []
    ∧ (ttsWorkerRun false [some "hello"]).enteredLoop = false
    ∧ (ttsWorkerRun false [some "hello"]).engineCreated = false
    ∧ (appStartTTS true).tts_ready = true
    ∧ (appStartTTS true).crashed = false :=
  ⟨rfl, rfl, rfl, rfl, rfl⟩

/-- C5 amended: when engine initialization fails the worker exits
immediately, creating no engine, entering no loop and speaking nothing, and
the host constructor never crashes; but the readiness flag records only
whether the worker thread was started, so an engine-initialization failure
inside the worker is not observable through it and speech features are not
disabled for the session. -/
theorem c5_tts_init_failure :
    ∀ (tasks : List (Option String)) (threadStartOk : Bool),
      (ttsWorkerRun false tasks).spoken = []
      ∧ (ttsWorkerRun false tasks).engineCreated = false
      ∧ (ttsWorkerRun false tasks).enteredLoop = false
      ∧ (appStartTTS threadStartOk).crashed = false
      ∧ (appStartTTS threadStartOk).tts_ready = threadStartOk := by
  intro tasks t
  refine ⟨rfl, rfl, rfl, ?_, ?_⟩ <;> cases t <;> rfl

theorem drainList_eq_nil : ∀ l : List String, drainList l = [] := by
  intro l
  induction l with
  | nil => rfl
  | cons t rest ih => simpa [drainList] using ih

theorem speakQueue_eq_append :
    ∀ (q spoken : List String), speakQueue spoken q = spoken ++ q := by
  intro q
  induction q with
  | nil => intro spoken; simp [speakQueue]
  | cons t rest ih => intro spoken; simp [speakQueue, ih]

/-- C3 counterexample: from queue ["hello","world"] the worker may dequeue
"hello" before the flush drain runs.  After one `get_nowait` the queue is
empty, so the drain loop of `stop_speaking` completes with zero utterances
spoken so far — yet the worker then speaks "hello", a task enqueued before
`flush()` completed.  The interleaving is valid (`qrunTrace` accepts it), so
the worker does not speak zero utterances in the quoted scenario. -/
theorem c3_flush_counterexample :
    qrunTrace ⟨["hello", "world"], none, []⟩ [.dequeue, .flushOne]
      = some ⟨[], some "hello", []⟩
    ∧ qrunTrace ⟨["hello", "world"], none, []⟩ [.dequeue, .flushOne, .speak]
      = some ⟨[], none, ["hello"]⟩ :=
  ⟨rfl, rfl⟩

/-- C3 amended: a task the worker has already dequeued when the flush drain
runs may still be spoken; but when the drain completes before the worker
dequeues anything, every previously queued task is removed unspoken (zero
utterances), and the worker then speaks exactly the tasks enqueued after the
flush, in order. -/
theorem c3_flush_behaviour :
    ∀ pre post : List String,
      (drainAllQ ⟨pre, none, []⟩).queue = []
      ∧ (drainAllQ ⟨pre, none, []⟩).spoken = []
      ∧ speakQueue (drainAllQ ⟨pre, none, []⟩).spoken post = post := by
  intro pre post
  refine ⟨?_, rfl, ?_⟩
  · simp [drainAllQ, drainList_eq_nil]
  · simp [drainAllQ, speakQueue_eq_append]

/-- C4: `stop_speaking` (the restart entry point) leaves the worker in
RUNNING state with a freshly allocated engine that no previous worker ever
owned, with the stop event cleared; the queue is empty afterwards precisely
because the restart path always performs the flush drain first, so the
"unless flush was also invoked" proviso of the claim is the case that
applies. -/
theorem c4_stop_speaking_restart :
    ∀ s : TTSSession,
      s.tts_ready = true →
      (∀ e ∈ s.pastEngines, e < s.nextEngineId) →
      (∀ e : Nat, s.workerEngine = some e → e < s.nextEngineId) →
      (stop_speaking s).workerState = WorkerState.running
      ∧ (stop_speaking s).workerEngine = some s.nextEngineId
      ∧ (∀ e ∈ (stop_speaking s).pastEngines,
          (stop_speaking s).workerEngine ≠ some e)
      ∧ (stop_speaking s).queue = []
      ∧ (stop_speaking s).stopEvent = false := by
  intro s h hpast hcur
  have hs : stop_speaking s
      = { queue := drainList s.queue
          stopEvent := false
          workerState := .running
          workerEngine := some s.nextEngineId
          pastEngines := s.pastEngines ++ s.workerEngine.toList
          nextEngineId := s.nextEngineId + 1
          tts_ready := s.tts_ready } := by
    simp [stop_speaking, h]
  rw [hs]
  refine ⟨rfl, rfl, ?_, ?_, rfl⟩
  · intro e he
    simp only [List.mem_append] at he
    have helt : e < s.nextEngineId := by
      rcases he with h1 | h1
      · exact hpast e h1
      · have h2 : s.workerEngine = some e := by
          cases hw : s.workerEngine with
          | none => rw [hw] at h1; simp at h1
          | some x =>
            rw [hw] at h1
            simp only [Option.toList_some, List.mem_singleton] at h1
            rw [h1]
        exact hcur e h2
    intro hcontra
    have : s.nextEngineId = e := Option.some.inj hcontra
    omega
  · simp [drainList_eq_nil]

/-- C4 witness: restarting a concrete running session whose worker owns
engine 0 yields a running worker owning the fresh engine 1 with an empty
queue. -/
theorem c4_stop_speaking_restart_witness :
    (stop_speaking
        ⟨["queued"], false, .running, some 0, [], 1, true⟩).workerState
      = WorkerState.running
    ∧ (stop_speaking
        ⟨["queued"], false, .running, some 0, [], 1, true⟩).workerEngine
      = some 1
    ∧ (stop_speaking
        ⟨["queued"], false, .running, some 0, [], 1, true⟩).queue = [] := by
  have h := c4_stop_speaking_restart
    ⟨["queued"], false, .running, some 0, [], 1, true⟩
    rfl (by simp) (by intro e he; simp_all)
  exact ⟨h.1, h.2.1, h.2.2.2.1⟩

end PdfEditor
